import Mathlib

/-!
Shallow embedding of the torchchat command-line front-end
(`torchchat.py` and `cli.py`).

The embedding models:
* the subset of the shared argument schema that the router, `check_args`
  and `arg_init` actually read (other flags are carried by the handlers
  only and never inspected by the code verified here);
* `cli.check_args` — the precondition check that may trigger the external
  acquisition collaborator `download_and_convert`;
* `cli.arg_init` — the argument post-processor (quantization-spec
  resolution and torch seeding);
* the `__main__` dispatch of `torchchat.py`, including the raw
  `sys.argv` port-scan loop and child-command construction of the
  `browser` branch.

External collaborators are oracles: `is_model_downloaded` is a boolean
function parameter, the filesystem is `String → Option String` (path to
file content when `Path(p).is_file()` holds), and `json.loads` is
`String → Option JVal` (`none` models a raised JSON decode error).
Side effects are recorded as an explicit event trace.
-/

namespace Torchchat

/-- JSON values, the possible results of `json.loads`. -/
inductive JVal where
  | jnull
  | jbool (b : Bool)
  | jnum (n : Int)
  | jstr (s : String)
  | jarr (elems : List JVal)
  | jobj (fields : List (String × JVal))
  deriving Repr

/-- The runtime value held by the `quantize` attribute of the parsed
argument namespace.  `absent` models `hasattr(args, 'quantize') = False`;
`raw` is a Python `str`; `parsed` is a non-string Python value produced
by `json.loads` (a dict, list, number, bool or None). -/
inductive QField where
  | absent
  | raw (s : String)
  | parsed (j : JVal)
  deriving Repr

/-- The fields of the parsed argument namespace read by `torchchat.py`,
`check_args` and `arg_init`, with the defaults declared in
`cli._add_arguments_common`.  Flags that are only forwarded to the
handlers are omitted except for `prompt`, `checkpoint_path` and `port`,
which the verified claims mention. -/
structure Args where
  command : String
  model : Option String := none
  model_directory : String := ".model-artifacts"
  hf_token : Option String := none
  chat : Bool := false
  gui : Bool := false
  prompt : String := "Hello, my name is"
  seed : Option Int := none
  checkpoint_path : String := "not_specified"
  quantize : QField := QField.raw "\x7b \x7d"
  verbose : Bool := false
  port : Int := 5000
  deriving Repr

/-- Observable side effects of one invocation, in program order:
`checkArgsCall` marks a call of `cli.check_args` by the router,
`presenceTest` an evaluation of `is_model_downloaded`,
`acquire` a call of `download_and_convert`,
`seedSet` a call of `torch.manual_seed`,
`handlerRun` an in-process handler call (`generate_main`, …),
`spawn` the `subprocess.run` of the browser child,
`helpPrinted` the `parser.print_help()` of the final else branch. -/
inductive Event where
  | checkArgsCall (name : String)
  | presenceTest (model dir : String)
  | acquire (model dir : String)
  | seedSet (n : Int)
  | handlerRun (h : String)
  | spawn (cmd : List String)
  | helpPrinted
  deriving Repr

/-- Exceptions that `arg_init` can raise: `typeError` when
`Path(args.quantize)` is applied to a non-string value, `jsonError`
when `json.loads` fails on the file content. -/
inductive PyError where
  | typeError
  | jsonError
  deriving Repr

/-- Effects of `cli.check_args(args, name)`:

    if (name not in ["download", "list", "remove"]
            and args.model
            and not is_model_downloaded(args.model, args.model_directory)):
        download_and_convert(args.model, args.model_directory, args.hf_token)

Python truthiness of `args.model`: `None` and `""` are falsy; the
conjunction short-circuits, so `is_model_downloaded` is only evaluated
when the first two conjuncts hold. -/
def check_args_events (isDL : String → String → Bool) (args : Args)
    (name : String) : List Event :=
  if name = "download" ∨ name = "list" ∨ name = "remove" then []
  else
    match args.model with
    | none => []
    | some m =>
      if m = "" then []
      else
        Event.presenceTest m args.model_directory ::
          (if isDL m args.model_directory then []
           else [Event.acquire m args.model_directory])

/-- A `json.loads` result stored back into the argument namespace: a
JSON string is a Python `str` (indistinguishable from a raw string
value), everything else is a non-string Python value. -/
def jvalToField : JVal → QField
  | JVal.jstr s => QField.raw s
  | j => QField.parsed j

/-- Seed step of `cli.arg_init`:

    if hasattr(args, 'seed') and args.seed:
        torch.manual_seed(args.seed)

`args.seed` is truthy exactly when it is neither `None` nor `0`. -/
def seedEvents (args : Args) : List Event :=
  match args.seed with
  | none => []
  | some n => if n = 0 then [] else [Event.seedSet n]

/-- Embedding of `cli.arg_init`:

    if hasattr(args, 'quantize') and Path(args.quantize).is_file():
        with open(args.quantize, "r") as f:
            args.quantize = json.loads(f.read())
    if hasattr(args, 'seed') and args.seed:
        torch.manual_seed(args.seed)
    return args

`Path(v)` raises `TypeError` when `v` is not a string, and `json.loads`
raises on undecodable content (`jloads content = none`). -/
def arg_init (fs : String → Option String) (jloads : String → Option JVal)
    (args : Args) : Except PyError (Args × List Event) :=
  match args.quantize with
  | QField.parsed _ => Except.error PyError.typeError
  | QField.absent => Except.ok (args, seedEvents args)
  | QField.raw s =>
    match fs s with
    | none => Except.ok (args, seedEvents args)
    | some content =>
      match jloads content with
      | none => Except.error PyError.jsonError
      | some j =>
        Except.ok ({ args with quantize := jvalToField j },
          seedEvents { args with quantize := jvalToField j })

/-- The browser port-scan `while` loop of `torchchat.py`, with an
explicit fuel bound (one unit per iteration; `none` means the fuel ran
out without the loop exiting):

    port = 5000
    i = 2
    while i < len(sys.argv):
        if sys.argv[i] == "--port":
            if i + 1 < len(sys.argv):
                port = sys.argv[i + 1]
                del sys.argv[i : i + 2]
                break
        else:
            i += 1

On success it returns the port string and the (possibly shortened)
`sys.argv`. -/
def portScanLoop (argv : List String) (i : Nat) (port : String)
    (fuel : Nat) : Option (String × List String) :=
  match fuel with
  | 0 => none
  | fuel + 1 =>
    if i < argv.length then
      if argv.getD i "" = "--port" then
        if i + 1 < argv.length then
          some (argv.getD (i + 1) "", argv.take i ++ argv.drop (i + 2))
        else
          portScanLoop argv i port fuel
      else
        portScanLoop argv (i + 1) port fuel
    else
      some (port, argv)

/-- The forwarded token list of the browser branch:

    args_plus_chat = ["'{}'".format(s) for s in sys.argv[1:] if s != "browser"] + ['"--chat"']
-/
def args_plus_chat (argvAfterDel : List String) : List String :=
  ((argvAfterDel.drop 1).filter (fun s => decide (s ≠ "browser"))).map
      (fun s => "'" ++ s ++ "'")
    ++ ["\"--chat\""]

/-- The child command of the browser branch:

    formatted_args = ", ".join(args_plus_chat)
    command = ["flask", "--app",
               "chat_in_browser:create_app(" + formatted_args + ")",
               "run", "--port", f"{port}"]
-/
def browserChildCommand (port : String) (argvAfterDel : List String) :
    List String :=
  ["flask", "--app",
   "chat_in_browser:create_app(" ++
     String.intercalate ", " (args_plus_chat argvAfterDel) ++ ")",
   "run", "--port", port]

/-- Result of the dispatch `if/elif` chain: the event trace, the final
argument namespace, and whether the browser scan loop ran forever
(`diverged = true` means `subprocess.run` is never reached). -/
structure RunResult where
  events : List Event
  args : Args
  diverged : Bool
  deriving Repr

/-- The `__main__` dispatch chain of `torchchat.py` after `arg_init`,
given the parsed arguments and the raw `sys.argv` token vector
(`argv.getD 0 ""` is the program name, `argv.getD 1 ""` the subcommand).
The browser branch runs its scan loop with fuel `argv.length + 1`, which
is enough for every terminating run of the Python loop; exhaustion
therefore coincides with genuine divergence. -/
def dispatch (isDL : String → String → Bool) (args : Args)
    (argv : List String) : RunResult :=
  if args.command = "chat" then
    let args := { args with chat := true }
    ⟨Event.checkArgsCall "chat" :: check_args_events isDL args "chat"
       ++ [Event.handlerRun "generate_main"], args, false⟩
  else if args.command = "browser" then
    let args := { args with chat := true, gui := true }
    let evs := Event.checkArgsCall "browser" ::
      check_args_events isDL args "browser"
    match portScanLoop argv 2 "5000" (argv.length + 1) with
    | none => ⟨evs, args, true⟩
    | some (port, argv2) =>
      ⟨evs ++ [Event.spawn (browserChildCommand port argv2)], args, false⟩
  else if args.command = "download" then
    ⟨Event.checkArgsCall "download" :: check_args_events isDL args "download"
       ++ [Event.handlerRun "download_main"], args, false⟩
  else if args.command = "generate" then
    ⟨Event.checkArgsCall "generate" :: check_args_events isDL args "generate"
       ++ [Event.handlerRun "generate_main"], args, false⟩
  else if args.command = "eval" then
    ⟨[Event.handlerRun "eval_main"], args, false⟩
  else if args.command = "export" then
    ⟨Event.checkArgsCall "export" :: check_args_events isDL args "export"
       ++ [Event.handlerRun "export_main"], args, false⟩
  else if args.command = "list" then
    ⟨Event.checkArgsCall "list" :: check_args_events isDL args "list"
       ++ [Event.handlerRun "list_main"], args, false⟩
  else if args.command = "remove" then
    ⟨Event.checkArgsCall "remove" :: check_args_events isDL args "remove"
       ++ [Event.handlerRun "remove_main"], args, false⟩
  else
    ⟨[Event.helpPrinted], args, false⟩

/-- Outcome of one whole invocation.  `usageExit` is the argparse error
exit (usage text printed, process status 2) taken before any dispatch;
`fatal` is an uncaught Python exception from `arg_init`; `diverged`
is the non-terminating browser scan loop. -/
inductive ProgOutcome where
  | usageExit
  | fatal (e : PyError) (events : List Event)
  | diverged (events : List Event)
  | completed (events : List Event) (finalArgs : Args)
  deriving Repr

/-- `torchchat.py` `__main__` after `parser.parse_args()` returned:
`args = arg_init(args)` followed by the dispatch chain. -/
def main_after_parse (isDL : String → String → Bool)
    (fs : String → Option String) (jloads : String → Option JVal)
    (args : Args) (argv : List String) : ProgOutcome :=
  match arg_init fs jloads args with
  | Except.error e => ProgOutcome.fatal e []
  | Except.ok (args2, evs0) =>
    let r := dispatch isDL args2 argv
    if r.diverged then ProgOutcome.diverged (evs0 ++ r.events)
    else ProgOutcome.completed (evs0 ++ r.events) r.args

/-- The eight subcommands registered with `subparsers.add_parser`. -/
def knownCommands : List String :=
  ["chat", "browser", "download", "generate", "eval", "export", "list",
   "remove"]

/-- Whether `parser.parse_args()` returns at all.  With
`subparsers.required = True`, argparse exits with usage text and status 2
when the subcommand token (`sys.argv[1]`) is missing or is not one of the
registered choices. -/
def argparseAccepts (argv : List String) : Bool :=
  match argv.drop 1 with
  | [] => false
  | c :: _ => knownCommands.contains c

/-- One whole invocation: `parser.parse_args()` (an oracle `parse`
constrained by its argparse semantics where a claim needs it), then
`main_after_parse`. -/
def torchchat_run (isDL : String → String → Bool)
    (fs : String → Option String) (jloads : String → Option JVal)
    (parse : List String → Option Args) (argv : List String) : ProgOutcome :=
  match parse argv with
  | none => ProgOutcome.usageExit
  | some args => main_after_parse isDL fs jloads args argv

/-- Events of an outcome (empty for the argparse usage exit, which
happens before any effect modelled here). -/
def eventsOf : ProgOutcome → List Event
  | ProgOutcome.usageExit => []
  | ProgOutcome.fatal _ evs => evs
  | ProgOutcome.diverged evs => evs
  | ProgOutcome.completed evs _ => evs

def isAcquire : Event → Bool
  | Event.acquire _ _ => true
  | _ => false

def isPresenceTest : Event → Bool
  | Event.presenceTest _ _ => true
  | _ => false

def isRunEvent : Event → Bool
  | Event.handlerRun _ => true
  | Event.spawn _ => true
  | _ => false

def isSeedSet : Event → Bool
  | Event.seedSet _ => true
  | _ => false

def isCheckArgsCall : Event → Bool
  | Event.checkArgsCall _ => true
  | _ => false

def isSpawn : Event → Bool
  | Event.spawn _ => true
  | _ => false

/-- One complete pass of the port-scan loop over the still-unscanned
suffix of `sys.argv`, described structurally: `none` when the loop runs
forever (the first `--port` token is the last token of the suffix),
`some (none, s)` when no `--port` token occurs (suffix unchanged),
`some (some v, s')` when the first `--port` token is followed by value
`v` and `s'` is the suffix with both tokens removed. -/
def scanPortAux : List String → Option (Option String × List String)
  | [] => some (none, [])
  | x :: xs =>
    if x = "--port" then
      match xs with
      | [] => none
      | v :: rest => some (some v, rest)
    else
      match scanPortAux xs with
      | none => none
      | some (r, xs') => some (r, x :: xs')

theorem drop_cons_getD (l : List String) (i : Nat) (x : String)
    (xs : List String) (h : l.drop i = x :: xs) :
    l.getD i "" = x ∧ l.drop (i + 1) = xs ∧ i < l.length := by
  induction l generalizing i with
  | nil => simp at h
  | cons a t ih =>
    cases i with
    | zero =>
      simp only [List.drop_zero] at h
      cases h
      refine ⟨rfl, by simp, by simp⟩
    | succ n =>
      simp only [List.drop_succ_cons] at h
      obtain ⟨h1, h2, h3⟩ := ih n h
      refine ⟨h1, ?_, ?_⟩
      · simpa using h2
      · simpa using Nat.succ_lt_succ h3

theorem drop_eq_nil_le (l : List String) (i : Nat) (h : l.drop i = []) :
    l.length ≤ i := by
  induction l generalizing i with
  | nil => simp
  | cons a t ih =>
    cases i with
    | zero => simp at h
    | succ n =>
      simp only [List.drop_succ_cons] at h
      simpa using Nat.succ_le_succ (ih n h)

theorem take_succ_of_drop (l : List String) (i : Nat) (x : String)
    (xs : List String) (h : l.drop i = x :: xs) :
    l.take (i + 1) = l.take i ++ [x] := by
  induction l generalizing i with
  | nil => simp at h
  | cons a t ih =>
    cases i with
    | zero =>
      simp only [List.drop_zero] at h
      cases h
      simp
    | succ n =>
      simp only [List.drop_succ_cons] at h
      simp [ih n h]

/-- When the token at the scan index is `--port` and it is the final
token of `sys.argv`, the loop body neither breaks nor advances the
index, so no amount of fuel makes the loop exit. -/
theorem portScanLoop_none_of_port_last (argv : List String) (i : Nat)
    (p : String) (hx : argv.getD i "" = "--port")
    (hlen : argv.length = i + 1) :
    ∀ fuel, portScanLoop argv i p fuel = none := by
  intro fuel
  induction fuel with
  | zero => rfl
  | succ f ih =>
    unfold portScanLoop
    rw [if_pos (by omega), if_pos hx, if_neg (by omega)]
    exact ih

/-- The fuelled loop agrees with the structural scan once the fuel is at
least the length of the unscanned suffix plus one; in particular fuel
exhaustion at that bound coincides with genuine divergence. -/
theorem portScanLoop_eq_scanPortAux (s : List String) :
    ∀ (argv : List String) (i fuel : Nat) (p : String),
      argv.drop i = s → s.length + 1 ≤ fuel →
      portScanLoop argv i p fuel =
        match scanPortAux s with
        | none => none
        | some (none, _) => some (p, argv)
        | some (some v, s') => some (v, argv.take i ++ s') := by
  induction s with
  | nil =>
    intro argv i fuel p hdrop hfuel
    obtain ⟨f, rfl⟩ : ∃ f, fuel = f + 1 := ⟨fuel - 1, by omega⟩
    have hle := drop_eq_nil_le argv i hdrop
    unfold portScanLoop
    rw [if_neg (by omega)]
    rfl
  | cons x xs ih =>
    intro argv i fuel p hdrop hfuel
    obtain ⟨f, rfl⟩ : ∃ f, fuel = f + 1 := ⟨fuel - 1, by omega⟩
    obtain ⟨hget, hdrop1, hlt⟩ := drop_cons_getD argv i x xs hdrop
    by_cases hx : x = "--port"
    · subst hx
      cases xs with
      | nil =>
        have hle := drop_eq_nil_le argv (i + 1) hdrop1
        have hlen : argv.length = i + 1 := by omega
        rw [portScanLoop_none_of_port_last argv i p hget hlen]
        simp [scanPortAux]
      | cons v rest =>
        obtain ⟨hget1, hdrop2, hlt1⟩ := drop_cons_getD argv (i + 1) v rest hdrop1
        have hdrop2' : argv.drop (i + 2) = rest := hdrop2
        unfold portScanLoop
        rw [if_pos hlt, if_pos hget, if_pos hlt1, hget1, hdrop2']
        simp [scanPortAux]
    · unfold portScanLoop
      rw [if_pos hlt, if_neg (by rw [hget]; exact hx)]
      have hrec := ih argv (i + 1) f p hdrop1 (by simpa using hfuel)
      rw [hrec]
      have htake := take_succ_of_drop argv i x xs hdrop
      simp only [scanPortAux, if_neg hx]
      cases hscan : scanPortAux xs with
      | none => simp
      | some r =>
        obtain ⟨ro, xs'⟩ := r
        cases ro with
        | none => simp
        | some v => simp [htake]

/-- Index of the first `--port` token of a list, counting from the head
(`s.length` when no such token occurs). -/
def portIdx : List String → Nat
  | [] => 0
  | x :: xs => if x = "--port" then 0 else portIdx xs + 1

theorem portIdx_le_length (s : List String) : portIdx s ≤ s.length := by
  induction s with
  | nil => simp [portIdx]
  | cons x xs ih =>
    by_cases hx : x = "--port"
    · simp [portIdx, hx]
    · simp only [portIdx, if_neg hx, List.length_cons]
      omega

/-- Every event emitted from inside `check_args` is a presence test or
an acquisition, never a seeding, handler, spawn or call marker. -/
theorem mem_check_args_events {isDL : String → String → Bool} {args : Args}
    {name : String} {e : Event}
    (h : e ∈ check_args_events isDL args name) :
    isSeedSet e = false ∧ isRunEvent e = false ∧
      isCheckArgsCall e = false ∧
      (isPresenceTest e = true ∨ isAcquire e = true) := by
  unfold check_args_events at h
  split at h
  · simp at h
  · split at h
    · simp at h
    · split at h
      · simp at h
      · rcases List.mem_cons.mp h with rfl | h2
        · exact ⟨rfl, rfl, rfl, Or.inl rfl⟩
        · split at h2
          · simp at h2
          · rcases List.mem_cons.mp h2 with rfl | h3
            · exact ⟨rfl, rfl, rfl, Or.inr rfl⟩
            · simp at h3

/-- `check_args` emits nothing for the acquisition-management
subcommands. -/
theorem check_args_events_skip (isDL : String → String → Bool)
    (args : Args) (name : String)
    (hname : name = "download" ∨ name = "list" ∨ name = "remove") :
    check_args_events isDL args name = [] := by
  unfold check_args_events
  rw [if_pos hname]

/-- For a non-management subcommand with a truthy model whose artifacts
are absent, `check_args` tests presence and then acquires. -/
theorem check_args_events_acquire (isDL : String → String → Bool)
    (args : Args) (name : String)
    (hname : ¬(name = "download" ∨ name = "list" ∨ name = "remove"))
    (m : String) (hm : args.model = some m) (hm0 : m ≠ "")
    (hd : isDL m args.model_directory = false) :
    check_args_events isDL args name =
      [Event.presenceTest m args.model_directory,
       Event.acquire m args.model_directory] := by
  simp [check_args_events, hname, hm, hm0, hd]

/-- Every event of the seed step is a `seedSet` of a present, non-zero
seed. -/
theorem mem_seedEvents {args : Args} {e : Event} (h : e ∈ seedEvents args) :
    ∃ n, e = Event.seedSet n ∧ args.seed = some n ∧ n ≠ 0 := by
  unfold seedEvents at h
  split at h
  · simp at h
  · next n heq =>
    split at h
    · simp at h
    · next hn =>
      rcases List.mem_cons.mp h with rfl | h2
      · exact ⟨n, rfl, heq, hn⟩
      · simp at h2

theorem seedEvents_of_pos (args : Args) (n : Int) (hs : args.seed = some n)
    (hn : n ≠ 0) : seedEvents args = [Event.seedSet n] := by
  simp [seedEvents, hs, hn]

theorem seedEvents_of_unset (args : Args)
    (hs : args.seed = none ∨ args.seed = some 0) : seedEvents args = [] := by
  rcases hs with hs | hs <;> simp [seedEvents, hs]

/-- Shape of a successful `arg_init`: the emitted events are exactly the
seed step's, and only the `quantize` field can have changed (replaced by
the loaded file content when the raw string named an existing file). -/
theorem arg_init_ok (fs : String → Option String)
    (jloads : String → Option JVal) (args a2 : Args) (evs : List Event)
    (h : arg_init fs jloads args = Except.ok (a2, evs)) :
    evs = seedEvents args ∧
      (a2 = args ∨
        ∃ s c j, args.quantize = QField.raw s ∧ fs s = some c ∧
          jloads c = some j ∧
          a2 = { args with quantize := jvalToField j }) := by
  unfold arg_init at h
  split at h
  · exact absurd h (by simp)
  · obtain ⟨h1, h2⟩ := Prod.mk.injEq .. ▸ (Except.ok.inj h)
    exact ⟨h2.symm, Or.inl h1.symm⟩
  · next s hq =>
    split at h
    · next hfs =>
      obtain ⟨h1, h2⟩ := Prod.mk.injEq .. ▸ (Except.ok.inj h)
      exact ⟨h2.symm, Or.inl h1.symm⟩
    · next c hfs =>
      split at h
      · exact absurd h (by simp)
      · next j hjl =>
        obtain ⟨h1, h2⟩ := Prod.mk.injEq .. ▸ (Except.ok.inj h)
        refine ⟨?_, Or.inr ⟨s, c, j, hq, hfs, hjl, h1.symm⟩⟩
        rw [← h2]
        rfl

/-- Branch equation: the `chat` arm of the dispatch chain. -/
theorem dispatch_chat (isDL : String → String → Bool) (args : Args)
    (argv : List String) (h : args.command = "chat") :
    dispatch isDL args argv =
      ⟨Event.checkArgsCall "chat" ::
         check_args_events isDL { args with chat := true } "chat"
         ++ [Event.handlerRun "generate_main"],
       { args with chat := true }, false⟩ := by
  simp [dispatch, h]

/-- Branch equation: the `browser` arm when the scan loop exits. -/
theorem dispatch_browser_spawn (isDL : String → String → Bool)
    (args : Args) (argv : List String) (port : String)
    (argv2 : List String) (h : args.command = "browser")
    (hscan : portScanLoop argv 2 "5000" (argv.length + 1) =
      some (port, argv2)) :
    dispatch isDL args argv =
      ⟨(Event.checkArgsCall "browser" ::
          check_args_events isDL { args with chat := true, gui := true }
            "browser")
         ++ [Event.spawn (browserChildCommand port argv2)],
       { args with chat := true, gui := true }, false⟩ := by
  simp [dispatch, h, hscan]

/-- Branch equation: the `browser` arm when the scan loop diverges. -/
theorem dispatch_browser_diverge (isDL : String → String → Bool)
    (args : Args) (argv : List String) (h : args.command = "browser")
    (hscan : portScanLoop argv 2 "5000" (argv.length + 1) = none) :
    dispatch isDL args argv =
      ⟨Event.checkArgsCall "browser" ::
         check_args_events isDL { args with chat := true, gui := true }
           "browser",
       { args with chat := true, gui := true }, true⟩ := by
  simp [dispatch, h, hscan]

/-- Branch equation: the `download` arm. -/
theorem dispatch_download (isDL : String → String → Bool) (args : Args)
    (argv : List String) (h : args.command = "download") :
    dispatch isDL args argv =
      ⟨Event.checkArgsCall "download" ::
         check_args_events isDL args "download"
         ++ [Event.handlerRun "download_main"], args, false⟩ := by
  simp [dispatch, h]

/-- Branch equation: the `generate` arm. -/
theorem dispatch_generate (isDL : String → String → Bool) (args : Args)
    (argv : List String) (h : args.command = "generate") :
    dispatch isDL args argv =
      ⟨Event.checkArgsCall "generate" ::
         check_args_events isDL args "generate"
         ++ [Event.handlerRun "generate_main"], args, false⟩ := by
  simp [dispatch, h]

/-- Branch equation: the `eval` arm, which has no `check_args` call. -/
theorem dispatch_eval (isDL : String → String → Bool) (args : Args)
    (argv : List String) (h : args.command = "eval") :
    dispatch isDL args argv =
      ⟨[Event.handlerRun "eval_main"], args, false⟩ := by
  simp [dispatch, h]

/-- Branch equation: the `export` arm. -/
theorem dispatch_export (isDL : String → String → Bool) (args : Args)
    (argv : List String) (h : args.command = "export") :
    dispatch isDL args argv =
      ⟨Event.checkArgsCall "export" ::
         check_args_events isDL args "export"
         ++ [Event.handlerRun "export_main"], args, false⟩ := by
  simp [dispatch, h]

/-- Branch equation: the `list` arm. -/
theorem dispatch_list (isDL : String → String → Bool) (args : Args)
    (argv : List String) (h : args.command = "list") :
    dispatch isDL args argv =
      ⟨Event.checkArgsCall "list" ::
         check_args_events isDL args "list"
         ++ [Event.handlerRun "list_main"], args, false⟩ := by
  simp [dispatch, h]

/-- Branch equation: the `remove` arm. -/
theorem dispatch_remove (isDL : String → String → Bool) (args : Args)
    (argv : List String) (h : args.command = "remove") :
    dispatch isDL args argv =
      ⟨Event.checkArgsCall "remove" ::
         check_args_events isDL args "remove"
         ++ [Event.handlerRun "remove_main"], args, false⟩ := by
  simp [dispatch, h]

/-- Events of an in-process branch (`check_args` call, its effects, one
handler call) never include a seeding event. -/
theorem no_seed_of_branch {isDL : String → String → Bool} {args : Args}
    {name hname' : String} {e : Event}
    (h : e ∈ Event.checkArgsCall name ::
          check_args_events isDL args name ++ [Event.handlerRun hname']) :
    isSeedSet e = false := by
  rcases List.mem_cons.mp h with rfl | h2
  · rfl
  · rcases List.mem_append.mp h2 with h3 | h3
    · exact (mem_check_args_events h3).1
    · rw [List.mem_singleton.mp h3]
      rfl

/-- The dispatch chain itself never seeds the random state: every
`seedSet` event of an invocation comes from `arg_init`. -/
theorem dispatch_no_seedSet (isDL : String → String → Bool) (args : Args)
    (argv : List String) :
    ∀ e ∈ (dispatch isDL args argv).events, isSeedSet e = false := by
  intro e h
  by_cases h1 : args.command = "chat"
  · rw [dispatch_chat isDL args argv h1] at h
    exact no_seed_of_branch h
  by_cases h2 : args.command = "browser"
  · cases hscan : portScanLoop argv 2 "5000" (argv.length + 1) with
    | none =>
      rw [dispatch_browser_diverge isDL args argv h2 hscan] at h
      rcases List.mem_cons.mp h with rfl | h3
      · rfl
      · exact (mem_check_args_events h3).1
    | some r =>
      obtain ⟨port, argv2⟩ := r
      rw [dispatch_browser_spawn isDL args argv port argv2 h2 hscan] at h
      rcases List.mem_append.mp h with h3 | h3
      · rcases List.mem_cons.mp h3 with rfl | h4
        · rfl
        · exact (mem_check_args_events h4).1
      · rw [List.mem_singleton.mp h3]
        rfl
  by_cases h3 : args.command = "download"
  · rw [dispatch_download isDL args argv h3] at h
    exact no_seed_of_branch h
  by_cases h4 : args.command = "generate"
  · rw [dispatch_generate isDL args argv h4] at h
    exact no_seed_of_branch h
  by_cases h5 : args.command = "eval"
  · rw [dispatch_eval isDL args argv h5] at h
    rw [List.mem_singleton.mp h]
    rfl
  by_cases h6 : args.command = "export"
  · rw [dispatch_export isDL args argv h6] at h
    exact no_seed_of_branch h
  by_cases h7 : args.command = "list"
  · rw [dispatch_list isDL args argv h7] at h
    exact no_seed_of_branch h
  by_cases h8 : args.command = "remove"
  · rw [dispatch_remove isDL args argv h8] at h
    exact no_seed_of_branch h
  · unfold dispatch at h
    rw [if_neg h1, if_neg h2, if_neg h3, if_neg h4, if_neg h5, if_neg h6,
      if_neg h7, if_neg h8] at h
    rw [List.mem_singleton.mp h]
    rfl

/-- The structural scan diverges exactly when the first `--port` token
of the suffix sits at its last position. -/
theorem scanPortAux_eq_none_iff (s : List String) :
    scanPortAux s = none ↔ portIdx s + 1 = s.length := by
  induction s with
  | nil => simp [scanPortAux, portIdx]
  | cons x xs ih =>
    by_cases hx : x = "--port"
    · subst hx
      cases xs with
      | nil => simp [scanPortAux, portIdx]
      | cons v rest => simp [scanPortAux, portIdx]
    · simp only [scanPortAux, if_neg hx, portIdx, List.length_cons]
      cases hscan : scanPortAux xs with
      | none =>
        have := ih.mp hscan
        simp only [true_iff, iff_true_intro rfl]
        omega
      | some r =>
        obtain ⟨ro, xs'⟩ := r
        have hne : portIdx xs + 1 ≠ xs.length := fun h => by
          have := ih.mpr h
          rw [this] at hscan
          exact Option.noConfusion hscan
        constructor
        · intro h
          exact absurd h (by simp)
        · intro h
          omega

/-- When the loop body can never exit (the structural scan of the
unscanned suffix diverges), no fuel at all produces a result. -/
theorem portScanLoop_none_of_aux_none (argv : List String) (p : String) :
    ∀ fuel i, scanPortAux (argv.drop i) = none →
      portScanLoop argv i p fuel = none := by
  intro fuel
  induction fuel with
  | zero => intro i _; rfl
  | succ f ih =>
    intro i haux
    cases hdrop : argv.drop i with
    | nil => rw [hdrop] at haux; exact absurd haux (by simp [scanPortAux])
    | cons x xs =>
      rw [hdrop] at haux
      obtain ⟨hget, hdrop1, hlt⟩ := drop_cons_getD argv i x xs hdrop
      by_cases hx : x = "--port"
      · subst hx
        cases xs with
        | nil =>
          have hle := drop_eq_nil_le argv (i + 1) hdrop1
          exact portScanLoop_none_of_port_last argv i p hget (by omega) _
        | cons v rest => exact absurd haux (by simp [scanPortAux])
      · have haux1 : scanPortAux (argv.drop (i + 1)) = none := by
          rw [hdrop1]
          simp only [scanPortAux, if_neg hx] at haux
          cases hscan : scanPortAux xs with
          | none => rfl
          | some r => rw [hscan] at haux; simp at haux
        unfold portScanLoop
        rw [if_pos hlt, if_neg (by rw [hget]; exact hx)]
        exact ih (i + 1) haux1

/-- `main_after_parse` when the post-processor succeeds. -/
theorem eventsOf_main_after_parse (isDL : String → String → Bool)
    (fs : String → Option String) (jloads : String → Option JVal)
    (args : Args) (argv : List String) (a2 : Args) (evs : List Event)
    (h : arg_init fs jloads args = Except.ok (a2, evs)) :
    eventsOf (main_after_parse isDL fs jloads args argv) =
      evs ++ (dispatch isDL a2 argv).events := by
  unfold main_after_parse
  rw [h]
  by_cases hd : (dispatch isDL a2 argv).diverged <;> simp [hd, eventsOf]

/-- The post-processor only ever rewrites the `quantize` field: every
other field survives `arg_init` unchanged. -/
theorem arg_init_preserves (fs : String → Option String)
    (jloads : String → Option JVal) (args a2 : Args) (evs : List Event)
    (h : arg_init fs jloads args = Except.ok (a2, evs)) :
    a2.command = args.command ∧ a2.model = args.model ∧
      a2.model_directory = args.model_directory ∧ a2.seed = args.seed ∧
      a2.chat = args.chat ∧ a2.gui = args.gui ∧
      a2.checkpoint_path = args.checkpoint_path := by
  rcases (arg_init_ok fs jloads args a2 evs h).2 with rfl | ⟨s, c, j, _, _, _, rfl⟩ <;>
    exact ⟨rfl, rfl, rfl, rfl, rfl, rfl, rfl⟩

/-- A seeding event is neither an acquisition nor a handler/spawn. -/
theorem seed_not_acquire_run {e : Event} (h : isSeedSet e = true) :
    isAcquire e = false ∧ isRunEvent e = false := by
  cases e
  case seedSet n => exact ⟨rfl, rfl⟩
  all_goals exact Bool.noConfusion h

/-- A presence test or acquisition is not a spawn. -/
theorem not_spawn_of_check {e : Event}
    (h : isPresenceTest e = true ∨ isAcquire e = true) :
    isSpawn e = false := by
  cases e
  case presenceTest m d => rfl
  case acquire m d => rfl
  all_goals (rcases h with h | h <;> exact Bool.noConfusion h)

/-- Common trace shape of the acquiring branches: seed events, the
`check_args` call marker, the presence test, the acquisition, then the
handler (or spawn, or nothing when the scan loop diverges). -/
theorem acquire_once_shape (evs0 : List Event) (name m dir : String)
    (tail : List Event) (h0 : ∀ e ∈ evs0, isSeedSet e = true)
    (htail : ∀ e ∈ tail, isAcquire e = false) :
    ∃ l1 l2,
      evs0 ++ Event.checkArgsCall name :: Event.presenceTest m dir ::
          Event.acquire m dir :: tail =
        l1 ++ Event.acquire m dir :: l2 ∧
      (∀ e ∈ l1, isAcquire e = false ∧ isRunEvent e = false) ∧
      (∀ e ∈ l2, isAcquire e = false) := by
  refine ⟨evs0 ++ [Event.checkArgsCall name, Event.presenceTest m dir],
    tail, by simp, ?_, htail⟩
  intro e he
  rcases List.mem_append.mp he with h1 | h1
  · exact seed_not_acquire_run (h0 e h1)
  · rcases List.mem_cons.mp h1 with rfl | h1
    · exact ⟨rfl, rfl⟩
    · rw [List.mem_singleton.mp h1]
      exact ⟨rfl, rfl⟩

/-- Sample filesystem for concrete runs: one file `q.json` whose
content is `{}`. -/
def fsSample : String → Option String := fun p =>
  if p = "q.json" then some "\x7b\x7d" else none

/-- Sample JSON decoder for concrete runs: decodes `{}` and the schema
default `{ }` to the empty object. -/
def jloadsSample : String → Option JVal := fun s =>
  if s = "\x7b\x7d" ∨ s = "\x7b \x7d" then some (JVal.jobj []) else none

/-- Sample artifact registry for concrete runs: nothing is downloaded. -/
def noDL : String → String → Bool := fun _ _ => false

/-- C5: the post-processor resolves the quantization field as follows:
a raw string naming an existing file is replaced by the parsed JSON
content of that file (a string colliding with an existing filename is
always treated as a file reference, never as inline JSON); an absent
attribute is skipped without error; any other raw string is left
unchanged for downstream decoding. -/
theorem c5_quantize_resolution (fs : String → Option String)
    (jloads : String → Option JVal) (args : Args) :
    (∀ s content j, args.quantize = QField.raw s → fs s = some content →
      jloads content = some j →
      arg_init fs jloads args =
        Except.ok ({ args with quantize := jvalToField j },
          seedEvents args)) ∧
    (args.quantize = QField.absent →
      arg_init fs jloads args = Except.ok (args, seedEvents args)) ∧
    (∀ s, args.quantize = QField.raw s → fs s = none →
      arg_init fs jloads args = Except.ok (args, seedEvents args)) := by
  refine ⟨?_, ?_, ?_⟩
  · intro s content j hq hfs hjl
    unfold arg_init
    simp only [hq, hfs, hjl]
    rfl
  · intro hq
    unfold arg_init
    simp only [hq]
  · intro s hq hfs
    unfold arg_init
    simp only [hq, hfs]

/-- C5 witness: on the sample filesystem, the file path `q.json` is
resolved to the parsed empty object and the run succeeds. -/
theorem c5_quantize_resolution_w :
    arg_init fsSample jloadsSample
        { command := "generate", quantize := QField.raw "q.json" } =
      Except.ok
        ({ command := "generate", quantize := QField.parsed (JVal.jobj []) },
         []) :=
  (c5_quantize_resolution fsSample jloadsSample
      { command := "generate", quantize := QField.raw "q.json" }).1
    "q.json" "\x7b\x7d" (JVal.jobj []) rfl rfl rfl

/-- C6 counterexample: quantization resolution is not idempotent on a
file path.  The first run replaces the raw path by the parsed object;
the second run applies `Path()` to that object and raises `TypeError`
instead of yielding the same resolved configuration. -/
theorem c6_counterexample :
    arg_init fsSample jloadsSample
        { command := "generate", quantize := QField.raw "q.json" } =
      Except.ok
        ({ command := "generate", quantize := QField.parsed (JVal.jobj []) },
         []) ∧
    arg_init fsSample jloadsSample
        { command := "generate", quantize := QField.parsed (JVal.jobj []) } =
      Except.error PyError.typeError :=
  ⟨rfl, rfl⟩

/-- C6 (amended): one post-processing run on a quantize string equal to
an existing file's path yields the parsed JSON content of that file, but
the resolution is not idempotent: a second run on the already-resolved
arguments raises `TypeError` whenever the parsed content is not itself a
JSON string. -/
theorem c6_single_resolution (fs : String → Option String)
    (jloads : String → Option JVal) (args : Args) (s content : String)
    (j : JVal) (hq : args.quantize = QField.raw s)
    (hfs : fs s = some content) (hjl : jloads content = some j)
    (hstr : ∀ t, j ≠ JVal.jstr t) :
    arg_init fs jloads args =
      Except.ok ({ args with quantize := jvalToField j },
        seedEvents args) ∧
    arg_init fs jloads { args with quantize := jvalToField j } =
      Except.error PyError.typeError := by
  have hj : jvalToField j = QField.parsed j := by
    cases j
    case jstr t => exact absurd rfl (hstr t)
    all_goals rfl
  constructor
  · unfold arg_init
    simp only [hq, hfs, hjl]
    rfl
  · unfold arg_init
    simp only [hj]

/-- C6 witness: concrete second run raising `TypeError`. -/
theorem c6_single_resolution_w :
    arg_init fsSample jloadsSample
        { command := "generate", quantize := QField.parsed (JVal.jobj []) } =
      Except.error PyError.typeError :=
  (c6_single_resolution fsSample jloadsSample
      { command := "generate", quantize := QField.raw "q.json" }
      "q.json" "\x7b\x7d" (JVal.jobj []) rfl rfl rfl
      (fun _ h => JVal.noConfusion h)).2

/-- C7: a present, non-zero seed is applied exactly once, as the very
first effect of the invocation (hence before any handler runs); a seed
of 0 or an absent seed never seeds the global random state. -/
theorem c7_seed_application (isDL : String → String → Bool)
    (fs : String → Option String) (jloads : String → Option JVal)
    (args : Args) (argv : List String) (a2 : Args) (evs : List Event)
    (hok : arg_init fs jloads args = Except.ok (a2, evs)) :
    (∀ n, args.seed = some n → n ≠ 0 →
      ∃ rest,
        eventsOf (main_after_parse isDL fs jloads args argv) =
          Event.seedSet n :: rest ∧
        ∀ e ∈ rest, isSeedSet e = false) ∧
    ((args.seed = none ∨ args.seed = some 0) →
      ∀ e ∈ eventsOf (main_after_parse isDL fs jloads args argv),
        isSeedSet e = false) := by
  have hevs : evs = seedEvents args :=
    (arg_init_ok fs jloads args a2 evs hok).1
  have hevents := eventsOf_main_after_parse isDL fs jloads args argv a2 evs hok
  constructor
  · intro n hs hn
    refine ⟨(dispatch isDL a2 argv).events, ?_, dispatch_no_seedSet isDL a2 argv⟩
    rw [hevents, hevs, seedEvents_of_pos args n hs hn]
    rfl
  · intro hs e he
    rw [hevents, hevs, seedEvents_of_unset args hs] at he
    exact dispatch_no_seedSet isDL a2 argv e (by simpa using he)

/-- C7 witness: a concrete invocation with seed 7 puts the seeding event
first and nowhere else. -/
theorem c7_seed_application_w :
    ∃ rest,
      eventsOf (main_after_parse noDL fsSample jloadsSample
          { command := "eval", seed := some 7 } ["torchchat.py", "eval"]) =
        Event.seedSet 7 :: rest ∧
      ∀ e ∈ rest, isSeedSet e = false :=
  (c7_seed_application noDL fsSample jloadsSample
      { command := "eval", seed := some 7 } ["torchchat.py", "eval"]
      { command := "eval", seed := some 7 } [Event.seedSet 7] rfl).1
    7 rfl (by decide)

/-- C3 counterexample: for a `download` invocation naming a model whose
artifacts are absent, the router does invoke the precondition checker —
the trace contains the `check_args` call marker — contrary to the claim
that the checker is never invoked for download/list/remove.  (The call
is a no-op: no presence test and no acquisition occur.) -/
theorem c3_counterexample :
    eventsOf (main_after_parse noDL fsSample jloadsSample
        { command := "download", model := some "llama" }
        ["torchchat.py", "download", "llama"]) =
      [Event.checkArgsCall "download", Event.handlerRun "download_main"] :=
  rfl

/-- C3 (amended): for the download/list/remove subcommands the router
does call `check_args`, but the call is a no-op: neither the
artifact-presence test nor the acquisition collaborator ever runs, even
when a model is named and its artifacts are absent. -/
theorem c3_management_no_acquisition (isDL : String → String → Bool)
    (fs : String → Option String) (jloads : String → Option JVal)
    (args : Args) (argv : List String)
    (h : args.command = "download" ∨ args.command = "list" ∨
      args.command = "remove") :
    (∀ e ∈ eventsOf (main_after_parse isDL fs jloads args argv),
      isAcquire e = false ∧ isPresenceTest e = false) ∧
    (∀ a2 evs, arg_init fs jloads args = Except.ok (a2, evs) →
      Event.checkArgsCall args.command ∈
        eventsOf (main_after_parse isDL fs jloads args argv)) := by
  cases hinit : arg_init fs jloads args with
  | error e =>
    constructor
    · intro ev hev
      unfold main_after_parse at hev
      rw [hinit] at hev
      simp [eventsOf] at hev
    · intro a2 evs hok
      exact absurd hok (by simp)
  | ok p =>
    obtain ⟨a2, evs⟩ := p
    have hevents := eventsOf_main_after_parse isDL fs jloads args argv a2 evs hinit
    have hevs : evs = seedEvents args := (arg_init_ok fs jloads args a2 evs hinit).1
    have hcmd : a2.command = args.command :=
      (arg_init_preserves fs jloads args a2 evs hinit).1
    have hskip : check_args_events isDL a2 args.command = [] :=
      check_args_events_skip isDL a2 args.command h
    have hdis : (dispatch isDL a2 argv).events =
        [Event.checkArgsCall args.command,
         Event.handlerRun (if args.command = "download" then "download_main"
           else if args.command = "list" then "list_main"
           else "remove_main")] := by
      rcases h with h | h | h
      · rw [h] at hskip
        rw [dispatch_download isDL a2 argv (by rw [hcmd, h])]
        simp [hskip, h]
      · rw [h] at hskip
        rw [dispatch_list isDL a2 argv (by rw [hcmd, h])]
        simp [hskip, h]
      · rw [h] at hskip
        rw [dispatch_remove isDL a2 argv (by rw [hcmd, h])]
        simp [hskip, h]
    constructor
    · intro e he
      rw [hevents, hdis, hevs] at he
      rcases List.mem_append.mp he with h1 | h1
      · obtain ⟨n, rfl, _, _⟩ := mem_seedEvents h1
        exact ⟨rfl, rfl⟩
      · rcases List.mem_cons.mp h1 with rfl | h1
        · exact ⟨rfl, rfl⟩
        · rw [List.mem_singleton.mp h1]
          exact ⟨rfl, rfl⟩
    · intro a2' evs' hok
      rw [hevents, hdis]
      simp

/-- C3 witness: the checker-call marker is present for a concrete
`remove` invocation with a named, absent model. -/
theorem c3_management_no_acquisition_w :
    Event.checkArgsCall "remove" ∈
      eventsOf (main_after_parse noDL fsSample jloadsSample
        { command := "remove", model := some "mistral" }
        ["torchchat.py", "remove", "mistral"]) :=
  (c3_management_no_acquisition noDL fsSample jloadsSample
      { command := "remove", model := some "mistral" }
      ["torchchat.py", "remove", "mistral"]
      (Or.inr (Or.inr rfl))).2
    { command := "remove", model := some "mistral" } [] rfl

/-- C4: an `eval` invocation never triggers the precondition checker,
the presence test or the acquisition collaborator; when post-processing
succeeds the only router effect is the eval handler call. -/
theorem c4_eval_no_acquisition (isDL : String → String → Bool)
    (fs : String → Option String) (jloads : String → Option JVal)
    (args : Args) (argv : List String) (h : args.command = "eval") :
    (∀ e ∈ eventsOf (main_after_parse isDL fs jloads args argv),
      isAcquire e = false ∧ isPresenceTest e = false ∧
        isCheckArgsCall e = false) ∧
    (∀ a2 evs, arg_init fs jloads args = Except.ok (a2, evs) →
      eventsOf (main_after_parse isDL fs jloads args argv) =
        evs ++ [Event.handlerRun "eval_main"]) := by
  constructor
  · intro e he
    cases hinit : arg_init fs jloads args with
    | error err =>
      unfold main_after_parse at he
      rw [hinit] at he
      simp [eventsOf] at he
    | ok p =>
      obtain ⟨a2, evs⟩ := p
      rw [eventsOf_main_after_parse isDL fs jloads args argv a2 evs hinit] at he
      rw [dispatch_eval isDL a2 argv
        (by rw [(arg_init_preserves fs jloads args a2 evs hinit).1, h])] at he
      rcases List.mem_append.mp he with h1 | h1
      · rw [(arg_init_ok fs jloads args a2 evs hinit).1] at h1
        obtain ⟨n, rfl, _, _⟩ := mem_seedEvents h1
        exact ⟨rfl, rfl, rfl⟩
      · rw [List.mem_singleton.mp h1]
        exact ⟨rfl, rfl, rfl⟩
  · intro a2 evs hok
    rw [eventsOf_main_after_parse isDL fs jloads args argv a2 evs hok]
    rw [dispatch_eval isDL a2 argv
      (by rw [(arg_init_preserves fs jloads args a2 evs hok).1, h])]

/-- C4 witness: a concrete `eval` run with a named, absent model calls
only the eval handler. -/
theorem c4_eval_no_acquisition_w :
    eventsOf (main_after_parse noDL fsSample jloadsSample
        { command := "eval", model := some "llama" }
        ["torchchat.py", "eval", "llama"]) =
      [] ++ [Event.handlerRun "eval_main"] :=
  (c4_eval_no_acquisition noDL fsSample jloadsSample
      { command := "eval", model := some "llama" }
      ["torchchat.py", "eval", "llama"] rfl).2
    { command := "eval", model := some "llama" } [] rfl

/-- C1: for every chat/browser/generate/export invocation with a named
model whose artifacts are absent and no explicit checkpoint path, the
acquisition collaborator is invoked exactly once, and strictly before
the subcommand handler call or the browser child spawn. -/
theorem c1_acquire_once (isDL : String → String → Bool)
    (fs : String → Option String) (jloads : String → Option JVal)
    (args : Args) (argv : List String) (m : String) (a2 : Args)
    (evs : List Event)
    (hok : arg_init fs jloads args = Except.ok (a2, evs))
    (hcmd : args.command = "chat" ∨ args.command = "browser" ∨
      args.command = "generate" ∨ args.command = "export")
    (hm : args.model = some m) (hm0 : m ≠ "")
    (habs : isDL m args.model_directory = false)
    (_hckpt : args.checkpoint_path = "not_specified") :
    ∃ l1 l2,
      eventsOf (main_after_parse isDL fs jloads args argv) =
        l1 ++ Event.acquire m args.model_directory :: l2 ∧
      (∀ e ∈ l1, isAcquire e = false ∧ isRunEvent e = false) ∧
      (∀ e ∈ l2, isAcquire e = false) := by
  have hevents := eventsOf_main_after_parse isDL fs jloads args argv a2 evs hok
  have hevs : evs = seedEvents args := (arg_init_ok fs jloads args a2 evs hok).1
  obtain ⟨hc, hmm, hdir, -, -, -, -⟩ := arg_init_preserves fs jloads args a2 evs hok
  have h0 : ∀ e ∈ evs, isSeedSet e = true := by
    intro e he
    rw [hevs] at he
    obtain ⟨n, rfl, -, -⟩ := mem_seedEvents he
    rfl
  have hmodel : a2.model = some m := by rw [hmm, hm]
  have hpresent : isDL m a2.model_directory = false := by rw [hdir]; exact habs
  rcases hcmd with h | h | h | h
  · have hces := check_args_events_acquire isDL { a2 with chat := true }
      "chat" (by decide) m hmodel hm0 hpresent
    have hde : (dispatch isDL a2 argv).events =
        Event.checkArgsCall "chat" ::
          (check_args_events isDL { a2 with chat := true } "chat"
            ++ [Event.handlerRun "generate_main"]) := by
      rw [dispatch_chat isDL a2 argv (by rw [hc, h])]
      rfl
    rw [hevents, hde, hces, ← hdir]
    exact acquire_once_shape evs "chat" m a2.model_directory
      [Event.handlerRun "generate_main"] h0
      (by intro e he; rw [List.mem_singleton.mp he]; rfl)
  · have hces := check_args_events_acquire isDL
      { a2 with chat := true, gui := true } "browser" (by decide) m hmodel
      hm0 hpresent
    cases hscan : portScanLoop argv 2 "5000" (argv.length + 1) with
    | none =>
      have hde : (dispatch isDL a2 argv).events =
          Event.checkArgsCall "browser" ::
            check_args_events isDL { a2 with chat := true, gui := true }
              "browser" := by
        rw [dispatch_browser_diverge isDL a2 argv (by rw [hc, h]) hscan]
      rw [hevents, hde, hces, ← hdir]
      exact acquire_once_shape evs "browser" m a2.model_directory [] h0
        (by intro e he; exact absurd he (List.not_mem_nil e))
    | some r =>
      obtain ⟨port, argv2⟩ := r
      have hde : (dispatch isDL a2 argv).events =
          (Event.checkArgsCall "browser" ::
            check_args_events isDL { a2 with chat := true, gui := true }
              "browser")
          ++ [Event.spawn (browserChildCommand port argv2)] := by
        rw [dispatch_browser_spawn isDL a2 argv port argv2 (by rw [hc, h])
          hscan]
      rw [hevents, hde, hces, ← hdir]
      exact acquire_once_shape evs "browser" m a2.model_directory
        [Event.spawn (browserChildCommand port argv2)] h0
        (by intro e he; rw [List.mem_singleton.mp he]; rfl)
  · have hces := check_args_events_acquire isDL a2 "generate" (by decide) m
      hmodel hm0 hpresent
    have hde : (dispatch isDL a2 argv).events =
        Event.checkArgsCall "generate" ::
          (check_args_events isDL a2 "generate"
            ++ [Event.handlerRun "generate_main"]) := by
      rw [dispatch_generate isDL a2 argv (by rw [hc, h])]
      rfl
    rw [hevents, hde, hces, ← hdir]
    exact acquire_once_shape evs "generate" m a2.model_directory
      [Event.handlerRun "generate_main"] h0
      (by intro e he; rw [List.mem_singleton.mp he]; rfl)
  · have hces := check_args_events_acquire isDL a2 "export" (by decide) m
      hmodel hm0 hpresent
    have hde : (dispatch isDL a2 argv).events =
        Event.checkArgsCall "export" ::
          (check_args_events isDL a2 "export"
            ++ [Event.handlerRun "export_main"]) := by
      rw [dispatch_export isDL a2 argv (by rw [hc, h])]
      rfl
    rw [hevents, hde, hces, ← hdir]
    exact acquire_once_shape evs "export" m a2.model_directory
      [Event.handlerRun "export_main"] h0
      (by intro e he; rw [List.mem_singleton.mp he]; rfl)

/-- C1 witness: a concrete chat invocation with a named, absent model
acquires exactly once before its handler. -/
theorem c1_acquire_once_w :
    ∃ l1 l2,
      eventsOf (main_after_parse noDL fsSample jloadsSample
          { command := "chat", model := some "stories15M" }
          ["torchchat.py", "chat", "stories15M"]) =
        l1 ++ Event.acquire "stories15M" ".model-artifacts" :: l2 ∧
      (∀ e ∈ l1, isAcquire e = false ∧ isRunEvent e = false) ∧
      (∀ e ∈ l2, isAcquire e = false) :=
  c1_acquire_once noDL fsSample jloadsSample
    { command := "chat", model := some "stories15M" }
    ["torchchat.py", "chat", "stories15M"] "stories15M"
    { command := "chat", model := some "stories15M" } [] rfl
    (Or.inl rfl) rfl (by decide) rfl rfl

/-- C8 counterexample: the router does mutate the argument object after
post-processing.  For a chat invocation whose `chat` flag is false when
`arg_init` finishes, the object handed onward has `chat = true`. -/
theorem c8_counterexample :
    arg_init fsSample jloadsSample ({ command := "chat" } : Args) =
      Except.ok (({ command := "chat" } : Args), []) ∧
    ({ command := "chat" } : Args).chat = false ∧
    (dispatch noDL { command := "chat" } ["torchchat.py", "chat"]).args.chat
      = true :=
  ⟨rfl, rfl, rfl⟩

/-- C8 (amended): after post-processing the router leaves the argument
object unchanged for every subcommand except the documented flag
forcing: the chat branch sets `chat := true` and the browser branch sets
`chat := true` and `gui := true` before dispatching. -/
theorem c8_router_mutation (isDL : String → String → Bool) (args : Args)
    (argv : List String) :
    (args.command ≠ "chat" → args.command ≠ "browser" →
      (dispatch isDL args argv).args = args) ∧
    (args.command = "chat" →
      (dispatch isDL args argv).args = { args with chat := true }) ∧
    (args.command = "browser" →
      (dispatch isDL args argv).args =
        { args with chat := true, gui := true }) := by
  refine ⟨?_, ?_, ?_⟩
  · intro h1 h2
    by_cases h3 : args.command = "download"
    · rw [dispatch_download isDL args argv h3]
    by_cases h4 : args.command = "generate"
    · rw [dispatch_generate isDL args argv h4]
    by_cases h5 : args.command = "eval"
    · rw [dispatch_eval isDL args argv h5]
    by_cases h6 : args.command = "export"
    · rw [dispatch_export isDL args argv h6]
    by_cases h7 : args.command = "list"
    · rw [dispatch_list isDL args argv h7]
    by_cases h8 : args.command = "remove"
    · rw [dispatch_remove isDL args argv h8]
    · unfold dispatch
      rw [if_neg h1, if_neg h2, if_neg h3, if_neg h4, if_neg h5, if_neg h6,
        if_neg h7, if_neg h8]
  · intro h
    rw [dispatch_chat isDL args argv h]
  · intro h
    cases hscan : portScanLoop argv 2 "5000" (argv.length + 1) with
    | none => rw [dispatch_browser_diverge isDL args argv h hscan]
    | some r =>
      obtain ⟨port, argv2⟩ := r
      rw [dispatch_browser_spawn isDL args argv port argv2 h hscan]

/-- C8 witness: the amended description at a concrete browser
invocation. -/
theorem c8_router_mutation_w :
    (dispatch noDL { command := "browser" } ["torchchat.py", "browser"]).args
      = { ({ command := "browser" } : Args) with chat := true, gui := true } :=
  (c8_router_mutation noDL { command := "browser" }
      ["torchchat.py", "browser"]).2.2 rfl

/-- C9: an invocation naming an unrecognized subcommand is a defined
terminal state: argparse (with `subparsers.required = True`) prints
usage and exits non-zero before any handler, precondition check or
acquisition can run.  The oracle `parse` is constrained by argparse
semantics: it only returns when the subcommand token is a registered
choice. -/
theorem c9_unknown_command (isDL : String → String → Bool)
    (fs : String → Option String) (jloads : String → Option JVal)
    (parse : List String → Option Args) (argv : List String)
    (cmd : String) (rest : List String)
    (hargv : argv.drop 1 = cmd :: rest)
    (hcmd : knownCommands.contains cmd = false)
    (hparse : ∀ a, parse argv = some a → argparseAccepts argv = true) :
    torchchat_run isDL fs jloads parse argv = ProgOutcome.usageExit ∧
    eventsOf (torchchat_run isDL fs jloads parse argv) = [] := by
  have hacc : argparseAccepts argv = false := by
    unfold argparseAccepts
    rw [hargv]
    exact hcmd
  have hp : parse argv = none := by
    cases hpp : parse argv with
    | none => rfl
    | some a =>
      have := hparse a hpp
      rw [hacc] at this
      exact Bool.noConfusion this
  constructor
  · unfold torchchat_run
    rw [hp]
  · unfold torchchat_run
    rw [hp]
    rfl

/-- C9 witness: the unknown subcommand `foo` exits at parsing with no
events. -/
theorem c9_unknown_command_w :
    torchchat_run noDL fsSample jloadsSample (fun _ => none)
        ["torchchat.py", "foo"] = ProgOutcome.usageExit ∧
    eventsOf (torchchat_run noDL fsSample jloadsSample (fun _ => none)
        ["torchchat.py", "foo"]) = [] :=
  c9_unknown_command noDL fsSample jloadsSample (fun _ => none)
    ["torchchat.py", "foo"] "foo" [] rfl (by decide)
    (fun a h => Option.noConfusion h)

/-- C2: for every browser invocation the dispatch scans the raw token
vector from index 2, removes the first `--port` flag together with its
following value (that value becoming the child's port, default `5000`),
quotes each remaining token after the program name except the literal
`browser`, joins them, injects the chat flag and spawns flask on the
extracted port.  In particular, the token vector
`browser --port 8080 --prompt hi` forwards quoted `--prompt` and `hi`
plus the injected chat flag, forwards neither `--port` nor `8080`, and
launches the child on port `8080`. -/
theorem c2_browser_forwarding (isDL : String → String → Bool)
    (args : Args) (argv : List String) (h : args.command = "browser") :
    (∀ v s', scanPortAux (argv.drop 2) = some (some v, s') →
      (dispatch isDL args argv).events =
        (Event.checkArgsCall "browser" ::
          check_args_events isDL { args with chat := true, gui := true }
            "browser")
        ++ [Event.spawn (browserChildCommand v (argv.take 2 ++ s'))]) ∧
    (∀ s', scanPortAux (argv.drop 2) = some (none, s') →
      (dispatch isDL args argv).events =
        (Event.checkArgsCall "browser" ::
          check_args_events isDL { args with chat := true, gui := true }
            "browser")
        ++ [Event.spawn (browserChildCommand "5000" argv)]) ∧
    (portScanLoop ["torchchat.py", "browser", "--port", "8080",
        "--prompt", "hi"] 2 "5000" 7 =
      some ("8080", ["torchchat.py", "browser", "--prompt", "hi"]) ∧
     args_plus_chat ["torchchat.py", "browser", "--prompt", "hi"] =
      ["'--prompt'", "'hi'", "\"--chat\""] ∧
     "'--port'" ∉ args_plus_chat ["torchchat.py", "browser", "--prompt",
        "hi"] ∧
     "'8080'" ∉ args_plus_chat ["torchchat.py", "browser", "--prompt",
        "hi"] ∧
     "--port" ∉ args_plus_chat ["torchchat.py", "browser", "--prompt",
        "hi"] ∧
     "8080" ∉ args_plus_chat ["torchchat.py", "browser", "--prompt",
        "hi"] ∧
     browserChildCommand "8080" ["torchchat.py", "browser", "--prompt",
        "hi"] =
      ["flask", "--app",
       "chat_in_browser:create_app('--prompt', 'hi', \"--chat\")",
       "run", "--port", "8080"]) := by
  have hfuel : (argv.drop 2).length + 1 ≤ argv.length + 1 := by
    simp only [List.length_drop]
    omega
  have hbridge := portScanLoop_eq_scanPortAux (argv.drop 2) argv 2
    (argv.length + 1) "5000" rfl hfuel
  refine ⟨?_, ?_, by decide, by decide, by decide, by decide, by decide,
    by decide, by decide⟩
  · intro v s' hscan
    rw [hscan] at hbridge
    rw [dispatch_browser_spawn isDL args argv v (argv.take 2 ++ s') h
      hbridge]
  · intro s' hscan
    rw [hscan] at hbridge
    rw [dispatch_browser_spawn isDL args argv "5000" argv h hbridge]

/-- C2 witness: the concrete example routed through the dispatcher. -/
theorem c2_browser_forwarding_w :
    (dispatch noDL { command := "browser" }
        ["torchchat.py", "browser", "--port", "8080", "--prompt",
         "hi"]).events =
      (Event.checkArgsCall "browser" ::
        check_args_events noDL
          { ({ command := "browser" } : Args) with
              chat := true, gui := true } "browser")
      ++ [Event.spawn (browserChildCommand "8080"
        (["torchchat.py", "browser", "--port", "8080", "--prompt",
          "hi"].take 2 ++ ["--prompt", "hi"]))] :=
  (c2_browser_forwarding noDL { command := "browser" }
      ["torchchat.py", "browser", "--port", "8080", "--prompt", "hi"]
      rfl).1
    "8080" ["--prompt", "hi"] rfl

/-- C10: the browser port scan terminates for every token vector whose
first `--port` token at index 2 or later is followed by at least one
further token, or that has no `--port` token at index 2 or later; when
that first `--port` token is the final token the loop never terminates
for any amount of fuel, and the child process is never spawned. -/
theorem c10_port_scan_termination (isDL : String → String → Bool)
    (args : Args) (argv : List String) (p : String)
    (h : args.command = "browser") :
    (portIdx (argv.drop 2) + 1 ≠ (argv.drop 2).length →
      ∃ r, ∀ fuel, (argv.drop 2).length + 1 ≤ fuel →
        portScanLoop argv 2 p fuel = some r) ∧
    (portIdx (argv.drop 2) + 1 = (argv.drop 2).length →
      (∀ fuel, portScanLoop argv 2 p fuel = none) ∧
      (dispatch isDL args argv).diverged = true ∧
      ∀ e ∈ (dispatch isDL args argv).events, isSpawn e = false) := by
  constructor
  · intro hterm
    have haux : scanPortAux (argv.drop 2) ≠ none := fun hn =>
      hterm ((scanPortAux_eq_none_iff (argv.drop 2)).mp hn)
    cases hscan : scanPortAux (argv.drop 2) with
    | none => exact absurd hscan haux
    | some r =>
      obtain ⟨ro, s'⟩ := r
      cases ro with
      | none =>
        refine ⟨(p, argv), fun fuel hf => ?_⟩
        rw [portScanLoop_eq_scanPortAux (argv.drop 2) argv 2 fuel p rfl hf,
          hscan]
      | some v =>
        refine ⟨(v, argv.take 2 ++ s'), fun fuel hf => ?_⟩
        rw [portScanLoop_eq_scanPortAux (argv.drop 2) argv 2 fuel p rfl hf,
          hscan]
  · intro hlast
    have haux : scanPortAux (argv.drop 2) = none :=
      (scanPortAux_eq_none_iff (argv.drop 2)).mpr hlast
    have hloop : ∀ fuel, portScanLoop argv 2 p fuel = none := fun fuel =>
      portScanLoop_none_of_aux_none argv p fuel 2 haux
    have hloop5 : portScanLoop argv 2 "5000" (argv.length + 1) = none :=
      portScanLoop_none_of_aux_none argv "5000" (argv.length + 1) 2 haux
    refine ⟨hloop, ?_, ?_⟩
    · rw [dispatch_browser_diverge isDL args argv h hloop5]
    · intro e he
      rw [dispatch_browser_diverge isDL args argv h hloop5] at he
      rcases List.mem_cons.mp he with rfl | h2
      · rfl
      · exact not_spawn_of_check (mem_check_args_events h2).2.2.2

/-- C10 witness: with `--port` as the final token the loop never exits
and the dispatcher records divergence with no spawned child. -/
theorem c10_port_scan_termination_w :
    portScanLoop ["torchchat.py", "browser", "--port"] 2 "5000" 1000 =
      none ∧
    (dispatch noDL { command := "browser" }
      ["torchchat.py", "browser", "--port"]).diverged = true := by
  have h := (c10_port_scan_termination noDL { command := "browser" }
      ["torchchat.py", "browser", "--port"] "5000" rfl).2 (by decide)
  exact ⟨h.1 1000, h.2.1⟩

end Torchchat
